import Mathlib

set_option maxHeartbeats 1000000
set_option maxRecDepth 4000

/-!
Shallow embedding of the oracle pallet (`src/pallets/oracle/src/lib.rs`).

Machine integers are modelled as `Nat`/`Int` with explicit wrap/saturation where
the source's arithmetic can overflow.  Storage maps (`ActiveParamTypes`,
`ActiveProviders`, `Infos`, `DataFeeds`, the unhashed value store) are modelled
as lists and association lists inside `OracleState`; dispatchables become
functions `OracleState → … → Except OracleError OracleState`.  A Rust panic
(e.g. `copy_from_slice` on slices of different lengths, or `%` by zero) is
modelled as `none` in an outer `Option`.
-/

namespace Oracle

/-- Storage keys are byte vectors (`Vec<u8>` in the source). -/
abbrev StorageKey := List Nat

/-- Account identifiers (`T::AccountId`), modelled as naturals. -/
abbrev AccountId := Nat

/-- Block numbers (`T::BlockNumber`), modelled as naturals. -/
abbrev BlockNumber := Nat

/-- `Operations`: how the aggregation engine reduces drained data. -/
inductive Operations where
  | Average
  | Sum
  deriving DecidableEq

/-- `NumberType`: the tag of a `PrimitiveOracleType`. -/
inductive NumberType where
  | U128
  | FixedU128
  deriving DecidableEq

/-- `PrimitiveOracleType`: `U128(u128) | FixedU128(FixedU128)`.  A `u128` is a
natural below `2^128`; a `FixedU128` is carried by its inner `u128`, at the
fixed scale `10^18`. -/
inductive PrimitiveOracleType where
  | U128 : Nat → PrimitiveOracleType
  | FixedU128 : Nat → PrimitiveOracleType
  deriving DecidableEq

/-- `Default for PrimitiveOracleType` is `U128(0)`. -/
instance : Inhabited PrimitiveOracleType := ⟨PrimitiveOracleType.U128 0⟩

/-- `PrimitiveOracleType::number_type`. -/
def PrimitiveOracleType.number_type : PrimitiveOracleType → NumberType
  | PrimitiveOracleType.U128 _ => NumberType.U128
  | PrimitiveOracleType.FixedU128 _ => NumberType.FixedU128

/-- `RING_BUF_LEN`: capacity of each (key, submitter) ring buffer. -/
def RING_BUF_LEN : Nat := 8

/-- `u128::MAX`. -/
def U128MAX : Nat := 2 ^ 128 - 1

/-- `i64::MAX`. -/
def I64MAX : Int := 2 ^ 63 - 1

/-- `FixedU128::DIV`: the fixed-point scale, `10^18`. -/
def FIXED_DIV : Nat := 10 ^ 18

/-- `lite_json::json::NumberValue`:
`{ integer: i64, fraction: u64, fraction_length: u32, exponent: i32 }`. -/
structure NumberValue where
  integer : Int
  fraction : Nat
  fraction_length : Nat
  exponent : Int
  deriving DecidableEq

/-- Reinterpretation of an integer modulo `2^64` as a signed 64-bit value.
Release-mode Rust arithmetic wraps on overflow; the theorems below keep every
intermediate inside `i64` range, where this map is the identity. -/
def i64wrap (x : Int) : Int := (x + 2 ^ 63) % 2 ^ 64 - 2 ^ 63

/-- `10_i64.pow(e)` under wrapping multiplication (iterated wrapping
multiplication agrees with reducing the exact power modulo `2^64`). -/
def pow10i64 (e : Nat) : Int := i64wrap ((10 : Int) ^ e)

/-- `sp_arithmetic::to_bound`: the saturation bound chosen by the operand
signs (`0` for a negative ratio, `u128::MAX` otherwise). -/
def to_bound (n d : Int) : Nat := if (n < 0) ≠ (d < 0) then 0 else U128MAX

/-- `FixedU128::from((n, d))`, i.e. `saturating_from_rational(n, d)` of
substrate's `sp_arithmetic`: a zero denominator panics (`none`); otherwise the
value is `⌊|n| * 10^18 / |d|⌋` when the signs agree and the quotient fits
`u128`, and saturation to the sign-picked bound otherwise. -/
def saturating_from_rational (n d : Int) : Option Nat :=
  if d = 0 then none
  else
    let q := n.natAbs * FIXED_DIV / d.natAbs
    if U128MAX < q then some (to_bound n d)
    else if ((n < 0) ≠ (d < 0)) ∧ q ≠ 0 then some (to_bound n d)
    else some q

/-- `PrimitiveOracleType::from_number_value(val, target_type)` (lib.rs:97-131).
The `i64` computations wrap through `i64wrap`; the `u64 → i64` cast of
`val.fraction` likewise.  The zero-denominator panic inside `FixedU128::from`
(reachable: `10_i64.pow(k)` wraps to `0` for `k ≥ 64`, i.e. for
`decimal_point ≤ -64`) escapes as `none`; every theorem below that asserts a
`some` result proves its denominator nonzero, so the conflation with the
rejection `None` is never exercised there. -/
def from_number_value (val : NumberValue) (target_type : NumberType) :
    Option PrimitiveOracleType :=
  match target_type with
  | NumberType.U128 =>
    if val.integer < 0 then none
    else some (PrimitiveOracleType.U128 val.integer.toNat)
  | NumberType.FixedU128 =>
    if val.integer < 0 then none
    else
      let decimal_point : Int := -(val.fraction_length : Int) + val.exponent
      let nd : Int × Int :=
        if 0 ≤ decimal_point then
          let n := i64wrap (i64wrap (i64wrap (val.integer * pow10i64 val.fraction_length) +
            i64wrap (val.fraction : Int)) * pow10i64 decimal_point.toNat)
          (n, 1)
        else
          let n := i64wrap (i64wrap (val.integer * pow10i64 val.fraction_length) +
            i64wrap (val.fraction : Int))
          let d := pow10i64 decimal_point.natAbs
          (n, d)
      (saturating_from_rational nd.1 nd.2).map PrimitiveOracleType.FixedU128

/-- `Info<BlockNumber>`: per-key configuration. -/
structure Info where
  key_str : List Nat
  number_type : NumberType
  operation : Operations
  schedule : BlockNumber
  deriving DecidableEq

/-- The pallet's dispatch errors (`decl_error!`).  Note there is no
`InvalidPeriod` variant in the source. -/
inductive OracleError where
  | ExistedKey
  | InvalidKey
  | InvalidValue
  | NotAllowed
  deriving DecidableEq

/-- First-match association-list lookup (storage-map `get`). -/
def lookupKV {α β : Type} [DecidableEq α] (k : α) : List (α × β) → Option β
  | [] => none
  | e :: rest => if e.1 = k then some e.2 else lookupKV k rest

/-- Association-list insert-or-overwrite (storage-map `insert` / unhashed `put`). -/
def putKV {α β : Type} [DecidableEq α] (k : α) (v : β) : List (α × β) → List (α × β)
  | [] => [(k, v)]
  | e :: rest => if e.1 = k then (k, v) :: rest else e :: putKV k v rest

/-- The pallet storage (`decl_storage!`): the active-key set, the provider set,
the per-key `Infos`, the `DataFeeds` double map keyed by (key, submitter), and
the unhashed value store results are published into. -/
structure OracleState where
  activeParamTypes : List StorageKey
  activeProviders : List AccountId
  infos : List (StorageKey × Info)
  dataFeeds : List ((StorageKey × AccountId) × List PrimitiveOracleType)
  storage : List (StorageKey × PrimitiveOracleType)
  deriving DecidableEq

/-- The empty genesis state. -/
def emptyState : OracleState :=
  { activeParamTypes := [], activeProviders := [], infos := [], dataFeeds := [],
    storage := [] }

/-- `<[T]>::copy_from_slice`: total only when the two slices have equal length;
a length mismatch panics, modelled as `none`. -/
def copy_from_slice {α : Type} (dst src : List α) : Option (List α) :=
  if src.length = dst.length then some src else none

/-- The `Some(data)` branch of `feed_data_impl`'s `try_mutate_exists`
(lib.rs:363-369): a fresh default-filled buffer gets `value` at slot 0, and
`data[0 .. data.len()-2]` is copied into `new_data[1..]`. -/
def ring_push (data : List PrimitiveOracleType) (value : PrimitiveOracleType) :
    Option (List PrimitiveOracleType) :=
  let new_tail : List PrimitiveOracleType :=
    List.replicate (RING_BUF_LEN - 1) (default : PrimitiveOracleType)
  (copy_from_slice new_tail (data.take (data.length - 2))).map
    (fun t => value :: t)

/-- `feed_data_impl(who, key, value)` (lib.rs:348-377).  The signed-origin check
of `feed_data` is external.  `none` models a panic inside the mutation; an
`Except.error` leaves the state unmodified (the checks precede every write). -/
def feed_data_impl (s : OracleState) (who : AccountId) (key : StorageKey)
    (value : PrimitiveOracleType) : Option (Except OracleError OracleState) :=
  if key ∈ s.activeParamTypes then
    match lookupKV key s.infos with
    | none => some (Except.error OracleError.InvalidKey)
    | some info =>
      if value.number_type = info.number_type then
        match lookupKV (key, who) s.dataFeeds with
        | some data =>
          (ring_push data value).map (fun new_data =>
            Except.ok { s with dataFeeds := putKV (key, who) new_data s.dataFeeds })
        | none =>
          some (Except.ok { s with
            dataFeeds := putKV (key, who) (List.replicate RING_BUF_LEN value) s.dataFeeds })
      else some (Except.error OracleError.InvalidValue)
  else some (Except.error OracleError.InvalidKey)

/-- `register_storage_key(key, info)` (lib.rs:259-271); the origin check is
external.  Only duplication of `key` is checked — nothing about `info`, in
particular not its `schedule`. -/
def register_storage_key (s : OracleState) (key : StorageKey) (info : Info) :
    Except OracleError OracleState :=
  if key ∈ s.activeParamTypes then Except.error OracleError.ExistedKey
  else Except.ok { s with
    activeParamTypes := s.activeParamTypes ++ [key],
    infos := putKV key info s.infos }

/-- `u128::saturating_add` (also the `FixedU128` saturating addition, which is
the saturating addition of the inner `u128`). -/
def u128_saturating_add (a b : Nat) : Nat := min (a + b) U128MAX

/-- `u128::checked_div`. -/
def u128_checked_div (a b : Nat) : Option Nat :=
  if b = 0 then none else some (a / b)

/-- `FixedU128::checked_div` on inner values: `⌊a * 10^18 / b⌋` when the
divisor is nonzero and the quotient fits `u128`. -/
def fixed_checked_div (a b : Nat) : Option Nat :=
  if b = 0 then none
  else
    let q := a * FIXED_DIV / b
    if q ≤ U128MAX then some q else none

/-- `FixedU128::from(len as u128)`, i.e. `saturating_from_integer`. -/
def fixed_from_nat (len : Nat) : Nat := min (len * FIXED_DIV) U128MAX

/-- `calc_impl(numbers, zero, convert, op)` (lib.rs:401-423), with the
`Saturating`/`CheckedDiv` trait methods passed as explicit dictionaries. -/
def calc_impl {N : Type} (numbers : List N) (zero : N) (satAdd : N → N → N)
    (checkedDiv : N → N → Option N) (convert : Nat → N) (op : Operations) : N :=
  match op with
  | Operations.Sum => numbers.foldl (fun a b => satAdd a b) zero
  | Operations.Average =>
    if numbers.isEmpty then zero
    else
      let sum := numbers.foldl (fun a b => satAdd a b) zero
      let n := convert numbers.length
      (checkedDiv sum n).getD zero

/-- `DataFeeds::drain_prefix(key)`: the drained `(submitter, buffer)` pairs
under `key`, paired with the remaining double map. -/
def drainFeeds (key : StorageKey)
    (feeds : List ((StorageKey × AccountId) × List PrimitiveOracleType)) :
    List (AccountId × List PrimitiveOracleType) ×
      List ((StorageKey × AccountId) × List PrimitiveOracleType) :=
  (feeds.filterMap (fun e => if e.1.1 = key then some (e.1.2, e.2) else none),
   feeds.filter (fun e => decide (e.1.1 ≠ key)))

/-- The drain-and-filter fold at the top of `calc` (lib.rs:427-433): extend the
working collection with a drained buffer exactly when its submitter is
currently in `ActiveProviders`. -/
def calc_data (s : OracleState) (key : StorageKey) : List PrimitiveOracleType :=
  (drainFeeds key s.dataFeeds).1.foldl
    (fun src p => if p.1 ∈ s.activeProviders then src ++ p.2 else src) []

/-- `calc(key, info)` (lib.rs:425-470): drain the buffers under `key`, keep the
values of currently-active providers, filter by the configured kind, reduce
with `calc_impl`, and publish the result under `key` (`set_storage_value`). -/
def calc' (s : OracleState) (key : StorageKey) (info : Info) : OracleState :=
  let data := calc_data s key
  let result :=
    match info.number_type with
    | NumberType.U128 =>
      let numbers := data.filterMap (fun num => match num with
        | PrimitiveOracleType.U128 a => some a
        | PrimitiveOracleType.FixedU128 _ => none)
      PrimitiveOracleType.U128
        (calc_impl numbers 0 u128_saturating_add u128_checked_div (fun len => len)
          info.operation)
    | NumberType.FixedU128 =>
      let numbers := data.filterMap (fun num => match num with
        | PrimitiveOracleType.U128 _ => none
        | PrimitiveOracleType.FixedU128 a => some a)
      PrimitiveOracleType.FixedU128
        (calc_impl numbers 0 u128_saturating_add fixed_checked_div fixed_from_nat
          info.operation)
  { s with dataFeeds := (drainFeeds key s.dataFeeds).2,
           storage := putKV key result s.storage }

/-- `on_finalize(n)` (lib.rs:325-331): for every registered key, run `calc`
when `n % schedule == 0`.  Rust's `%` panics on a zero divisor, modelled as
`none`. -/
def on_finalize (s : OracleState) (n : BlockNumber) : Option OracleState :=
  s.infos.foldl
    (fun acc e =>
      acc.bind (fun st =>
        if e.2.schedule = 0 then none
        else if n % e.2.schedule = 0 then some (calc' st e.1 e.2) else some st))
    (some s)

/-- `lite_json::json::JsonValue` (the parsed document shape). -/
inductive JsonValue where
  | Object : List (List Char × JsonValue) → JsonValue
  | Array : List JsonValue → JsonValue
  | String : List Char → JsonValue
  | Number : NumberValue → JsonValue
  | Boolean : Bool → JsonValue
  | Null : JsonValue

/-- One candidate key compared against the mutable `Chars` iterator
(`k.iter().all(|k| Some(*k) == key_str.next())`, lib.rs:539): returns whether
every key character matched a successively drawn path character, together with
the iterator's remaining characters.  `all` short-circuits at the first
mismatch, and an exhausted iterator yields `None`, which never matches. -/
def matchKey : List Char → List Char → Bool × List Char
  | [], path => (true, path)
  | _ :: _, [] => (false, [])
  | k :: ks, p :: ps => if k = p then matchKey ks ps else (false, ps)

/-- `obj.into_iter().find(...)` with the stateful predicate above: the path
iterator is threaded through failed candidates, never reset. -/
def findFirst : List (List Char × JsonValue) → List Char →
    Option (List Char × JsonValue)
  | [], _ => none
  | kv :: rest, path =>
    match matchKey kv.1 path with
    | (true, _) => some kv
    | (false, rem) => findFirst rest rem

/-- The path characters left in the iterator after scanning a run of
candidate keys. -/
def scanLeftover : List (List Char × JsonValue) → List Char → List Char
  | [], path => path
  | kv :: rest, path => scanLeftover rest (matchKey kv.1 path).2

/-- `parse_data(key_str, number_type, data)` (lib.rs:529-548), taken after the
upstream `lite_json::parse_json` succeeded (a parse failure is already `None`
there): inspect only a top-level object, select the first member matched by the
threaded scan, require its value to be a JSON number, and convert. -/
def parse_data (key_str : List Char) (number_type : NumberType) (v : JsonValue) :
    Option PrimitiveOracleType :=
  let output : Option NumberValue :=
    match v with
    | JsonValue.Object obj =>
      match findFirst obj key_str with
      | some (_, JsonValue.Number number) => some number
      | some _ => none
      | none => none
    | _ => none
  output.bind (fun o => from_number_value o number_type)

/-- The local `decimal_point` of `from_number_value` (lib.rs:109):
`-(fraction_length as i32) + exponent`, i.e. `exponent - fraction_digits`. -/
def decimal_point (val : NumberValue) : Int :=
  -(val.fraction_length : Int) + val.exponent

/-- The combined mantissa `integer * 10^fraction_digits + fraction` of a
decimal literal, computed exactly over `ℤ`. -/
def mantissa (val : NumberValue) : Int :=
  val.integer * 10 ^ val.fraction_length + (val.fraction : Int)

/-! ### Shared helper lemmas -/

theorem i64wrap_of_nonneg {x : Int} (h0 : 0 ≤ x) (h1 : x ≤ I64MAX) :
    i64wrap x = x := by
  unfold i64wrap I64MAX at *
  omega

theorem pow10i64_eq {e : Nat} (h : e ≤ 18) : pow10i64 e = (10 : Int) ^ e := by
  have h0 : (0 : Int) ≤ 10 ^ e := pow_nonneg (by norm_num) e
  have h1 : (10 : Int) ^ e ≤ 10 ^ 18 := pow_le_pow_right₀ (by norm_num) h
  simpa [pow10i64] using i64wrap_of_nonneg h0 (h1.trans (by norm_num [I64MAX]))

theorem saturating_from_rational_of_nonneg {n d : Int} (hn : 0 ≤ n) (hd : 0 < d)
    (hq : n.natAbs * FIXED_DIV / d.natAbs ≤ U128MAX) :
    saturating_from_rational n d = some (n.natAbs * FIXED_DIV / d.natAbs) := by
  have h2 : ¬ n < 0 := by omega
  have h3 : ¬ d < 0 := by omega
  have h23 : (n < 0) = (d < 0) := by
    simp [eq_iff_iff, h2, h3]
  simp only [saturating_from_rational]
  rw [if_neg (by omega : ¬ d = 0)]
  rw [if_neg (by omega : ¬ U128MAX < n.natAbs * FIXED_DIV / d.natAbs)]
  rw [if_neg (by simp [h23])]

/-- The `FixedU128` branch of `from_number_value` for a non-negative integer
part, with the branch condition expressed through `decimal_point`. -/
theorem from_number_value_fixed_eq (val : NumberValue) (h0 : 0 ≤ val.integer) :
    from_number_value val NumberType.FixedU128
      = (saturating_from_rational
          (if 0 ≤ decimal_point val then
            i64wrap (i64wrap (i64wrap (val.integer * pow10i64 val.fraction_length) +
              i64wrap (val.fraction : Int)) * pow10i64 (decimal_point val).toNat)
           else
            i64wrap (i64wrap (val.integer * pow10i64 val.fraction_length) +
              i64wrap (val.fraction : Int)))
          (if 0 ≤ decimal_point val then 1
           else pow10i64 (decimal_point val).natAbs)).map
        PrimitiveOracleType.FixedU128 := by
  simp only [from_number_value, decimal_point]
  rw [if_neg (not_lt.mpr h0)]
  by_cases h : 0 ≤ -(val.fraction_length : Int) + val.exponent <;> simp [h]

theorem lookupKV_putKV_self {α β : Type} [DecidableEq α] (k : α) (v : β) :
    ∀ l : List (α × β), lookupKV k (putKV k v l) = some v := by
  intro l
  induction l with
  | nil => simp [putKV, lookupKV]
  | cons e rest ih =>
    by_cases h : e.1 = k
    · simp [putKV, lookupKV, h]
    · simp [putKV, lookupKV, h, ih]

theorem lookupKV_drainFeeds (key : StorageKey) (who : AccountId) :
    ∀ feeds, lookupKV (key, who) ((drainFeeds key feeds).2) = none := by
  intro feeds
  induction feeds with
  | nil => simp [drainFeeds, lookupKV]
  | cons e rest ih =>
    by_cases h : e.1.1 = key
    · simpa [drainFeeds, lookupKV, h] using ih
    · have hne : e.1 ≠ (key, who) := by
        intro hc
        exact h (by rw [hc])
      simp only [drainFeeds, List.filter_cons] at ih ⊢
      simp only [decide_eq_true_eq]
      rw [if_pos h]
      simpa [lookupKV, hne] using ih

theorem foldl_extend_eq_filter_bind (providers : List AccountId) :
    ∀ (l : List (AccountId × List PrimitiveOracleType)) (acc : List PrimitiveOracleType),
      l.foldl (fun src p => if p.1 ∈ providers then src ++ p.2 else src) acc
        = acc ++ (l.filter (fun p => decide (p.1 ∈ providers))).flatMap (fun p => p.2) := by
  intro l
  induction l with
  | nil => intro acc; simp
  | cons p rest ih =>
    intro acc
    by_cases h : p.1 ∈ providers
    · simp [List.foldl_cons, h, ih, List.append_assoc]
    · simp [List.foldl_cons, h, ih]

theorem findFirst_append_of_none :
    ∀ (pre rest : List (List Char × JsonValue)) (path : List Char),
      findFirst pre path = none →
      findFirst (pre ++ rest) path = findFirst rest (scanLeftover pre path) := by
  intro pre
  induction pre with
  | nil => intro rest path _; simp [scanLeftover]
  | cons kv pre' ih =>
    intro rest path h
    rcases hmk : matchKey kv.1 path with ⟨b, rem⟩
    cases b
    · have h' : findFirst pre' rem = none := by
        simpa [findFirst, hmk] using h
      have e1 : findFirst ((kv :: pre') ++ rest) path = findFirst (pre' ++ rest) rem := by
        simp [findFirst, hmk]
      have e2 : scanLeftover (kv :: pre') path = scanLeftover pre' rem := by
        simp [scanLeftover, hmk]
      rw [e1, e2]
      exact ih rest rem h'
    · exfalso
      simp [findFirst, hmk] at h

/-! ### Claim theorems -/

/-- A registered key with a `U128`-kind, `Sum`, period-1 configuration and no
data yet; used as a concrete base state. -/
def keyedState : OracleState :=
  { emptyState with
    activeParamTypes := [[1]],
    infos := [([1], ⟨[], NumberType.U128, Operations.Sum, 1⟩)] }

/-- C1: a first submission fills the ring buffer, but the shift step of every
subsequent submission calls `copy_from_slice` with a 6-element source
(`data[0..len-2]`) and a 7-slot destination (`new_data[1..]`), which panics, so
the claimed shift-toward-higher-indices behaviour is never reached: the second
push panics instead of placing the value at slot 0 and evicting the oldest. -/
theorem feed_data_second_push_panics :
    ∃ s1, feed_data_impl keyedState 0 [1] (PrimitiveOracleType.U128 0)
        = some (Except.ok s1)
      ∧ feed_data_impl s1 0 [1] (PrimitiveOracleType.U128 1) = none := by
  exact ⟨_, rfl, rfl⟩

/-- C2: for every already-populated (8-slot) buffer, the shift step's source
slice has length 6, not the destination's 7, so `copy_from_slice` panics:
`ring_push` is `none` on every 8-slot buffer. -/
theorem ring_push_len8_panics (data : List PrimitiveOracleType)
    (value : PrimitiveOracleType) (h : data.length = RING_BUF_LEN) :
    ring_push data value = none := by
  simp [ring_push, copy_from_slice, h, RING_BUF_LEN]

/-- Witness for C2 at a concrete 8-slot buffer. -/
theorem ring_push_len8_panics_witness :
    ring_push (List.replicate 8 (PrimitiveOracleType.U128 0))
      (PrimitiveOracleType.U128 1) = none :=
  ring_push_len8_panics _ _ (by decide)

/-- C3: registering a key whose `schedule` is zero does not fail — no
`InvalidPeriod` error exists and `register_storage_key` validates nothing about
the period — and `on_finalize` then evaluates `n % 0`, which panics. -/
theorem register_zero_period_accepted :
    ∃ s, register_storage_key emptyState [9] ⟨[], NumberType.U128, Operations.Sum, 0⟩
        = Except.ok s
      ∧ [9] ∈ s.activeParamTypes
      ∧ on_finalize s 1 = none := by
  exact ⟨_, rfl, by decide, rfl⟩

/-- C5: on a triggering tick, `calc` (i) leaves no (key, submitter) buffer
under the key, (ii) builds its working collection from exactly the drained
buffers whose submitter is in `ActiveProviders` at drain time, and (iii) on the
concrete two-submitter example with S2 deauthorized, publishes the `Sum`
aggregate of S1's buffer alone. -/
theorem calc_drain_filters_providers :
    (∀ s key info who, lookupKV (key, who) (calc' s key info).dataFeeds = none)
    ∧ (∀ s key, calc_data s key
        = ((drainFeeds key s.dataFeeds).1.filter
            (fun p => decide (p.1 ∈ s.activeProviders))).flatMap (fun p => p.2))
    ∧ (calc' { emptyState with
          activeProviders := [1],
          dataFeeds := [(([7], 1), List.replicate 8 (PrimitiveOracleType.U128 3)),
                        (([7], 2), List.replicate 8 (PrimitiveOracleType.U128 7))] }
        [7] ⟨[], NumberType.U128, Operations.Sum, 5⟩).storage
        = [([7], PrimitiveOracleType.U128 24)] := by
  refine ⟨?_, ?_, by decide⟩
  · intro s key info who
    simp only [calc']
    exact lookupKV_drainFeeds key who s.dataFeeds
  · intro s key
    simpa [calc_data] using
      foldl_extend_eq_filter_bind s.activeProviders (drainFeeds key s.dataFeeds).1 []

/-- C6: `from_number_value` rejects every decimal literal with a negative
integer part, for both target kinds. -/
theorem from_number_value_neg_none (val : NumberValue) (t : NumberType)
    (h : val.integer < 0) : from_number_value val t = none := by
  cases t <;> simp [from_number_value, h]

/-- Witness for C6 at `integer = -1`, both kinds. -/
theorem from_number_value_neg_none_witness :
    from_number_value ⟨-1, 0, 0, 0⟩ NumberType.U128 = none
    ∧ from_number_value ⟨-1, 0, 0, 0⟩ NumberType.FixedU128 = none :=
  ⟨from_number_value_neg_none _ _ (by decide),
   from_number_value_neg_none _ _ (by decide)⟩

/-- C7: `Sum` aggregation folds with `u128` saturating addition — on
`[a, b]` it yields `saturating_add(a, b)` — and once the accumulated sum is the
kind's maximum, appending any further value leaves it unchanged. -/
theorem calc_impl_sum_saturates :
    (∀ a b : Nat, a ≤ U128MAX →
      calc_impl [a, b] 0 u128_saturating_add u128_checked_div (fun len => len)
        Operations.Sum = u128_saturating_add a b)
    ∧ (∀ (xs : List Nat) (v : Nat),
      calc_impl xs 0 u128_saturating_add u128_checked_div (fun len => len)
        Operations.Sum = U128MAX →
      calc_impl (xs ++ [v]) 0 u128_saturating_add u128_checked_div (fun len => len)
        Operations.Sum = U128MAX) := by
  constructor
  · intro a b ha
    simp [calc_impl, u128_saturating_add, Nat.min_eq_left ha]
  · intro xs v h
    simp only [calc_impl, List.foldl_append] at h ⊢
    rw [h]
    simp [u128_saturating_add, Nat.min_eq_right (Nat.le_add_right _ _)]

/-- Witness for C7: the two-element sum at `(3, 4)` and saturation on a buffer
already at the maximum. -/
theorem calc_impl_sum_saturates_witness :
    calc_impl [3, 4] 0 u128_saturating_add u128_checked_div (fun len => len)
      Operations.Sum = u128_saturating_add 3 4
    ∧ calc_impl ([U128MAX] ++ [5]) 0 u128_saturating_add u128_checked_div
      (fun len => len) Operations.Sum = U128MAX :=
  ⟨calc_impl_sum_saturates.1 3 4 (by decide),
   calc_impl_sum_saturates.2 [U128MAX] 5 (by decide)⟩

/-- C8: submitting under a key that is not in `ActiveParamTypes` fails with
`InvalidKey`, whatever the value; no ring buffer is touched (the check precedes
every write, and the error return carries the state back unchanged). -/
theorem feed_data_unknown_key (s : OracleState) (who : AccountId)
    (key : StorageKey) (value : PrimitiveOracleType)
    (h : key ∉ s.activeParamTypes) :
    feed_data_impl s who key value = some (Except.error OracleError.InvalidKey) := by
  simp [feed_data_impl, h]

/-- Witness for C8 on the empty state. -/
theorem feed_data_unknown_key_witness :
    feed_data_impl emptyState 0 [1] (PrimitiveOracleType.U128 5)
      = some (Except.error OracleError.InvalidKey) :=
  feed_data_unknown_key _ _ _ _ (by decide)

/-- C9: the first accepted submission of `value` for a (key, submitter) pair
creates that pair's buffer as `[value; 8]` — every slot equals `value`. -/
theorem feed_data_first_submission (s : OracleState) (who : AccountId)
    (key : StorageKey) (value : PrimitiveOracleType) (info : Info)
    (hmem : key ∈ s.activeParamTypes)
    (hinfo : lookupKV key s.infos = some info)
    (htype : value.number_type = info.number_type)
    (hfeeds : lookupKV (key, who) s.dataFeeds = none) :
    ∃ s', feed_data_impl s who key value = some (Except.ok s')
      ∧ lookupKV (key, who) s'.dataFeeds
          = some (List.replicate RING_BUF_LEN value)
      ∧ ∀ x ∈ List.replicate RING_BUF_LEN value, x = value := by
  have hs' : feed_data_impl s who key value = some (Except.ok
      { s with dataFeeds :=
          putKV (key, who) (List.replicate RING_BUF_LEN value) s.dataFeeds }) := by
    simp [feed_data_impl, hmem, hinfo, htype, hfeeds]
  exact ⟨_, hs', lookupKV_putKV_self _ _ _,
    fun x hx => List.eq_of_mem_replicate hx⟩

/-- Witness for C9 on a concrete registered key with no prior data. -/
theorem feed_data_first_submission_witness :
    ∃ s', feed_data_impl keyedState 0 [1] (PrimitiveOracleType.U128 5)
        = some (Except.ok s')
      ∧ lookupKV ([1], 0) s'.dataFeeds
          = some (List.replicate RING_BUF_LEN (PrimitiveOracleType.U128 5))
      ∧ ∀ x ∈ List.replicate RING_BUF_LEN (PrimitiveOracleType.U128 5),
          x = PrimitiveOracleType.U128 5 :=
  feed_data_first_submission keyedState 0 [1] (PrimitiveOracleType.U128 5)
    ⟨[], NumberType.U128, Operations.Sum, 1⟩ (by decide) rfl rfl rfl

/-- C10: `parse_data` inspects only a top-level object (anything else yields
`none`); finding no member by the threaded character scan yields `none`; and
the first member whose key matches the path characters — the path iterator
being consumed across earlier failed candidates, never reset — is selected,
with a non-number value yielding `none` and a number converted. -/
theorem parse_data_top_level_first_match :
    (∀ (path : List Char) (nt : NumberType) (v : JsonValue),
      (∀ obj, v ≠ JsonValue.Object obj) → parse_data path nt v = none)
    ∧ (∀ (path : List Char) (nt : NumberType) obj,
      findFirst obj path = none → parse_data path nt (JsonValue.Object obj) = none)
    ∧ (∀ (path : List Char) (nt : NumberType) pre (kv : List Char × JsonValue) post,
      findFirst pre path = none →
      (matchKey kv.1 (scanLeftover pre path)).1 = true →
      parse_data path nt (JsonValue.Object (pre ++ kv :: post))
        = (match kv.2 with
           | JsonValue.Number number => from_number_value number nt
           | _ => none)) := by
  refine ⟨?_, ?_, ?_⟩
  · intro path nt v hv
    cases v with
    | Object obj => exact absurd rfl (hv obj)
    | _ => rfl
  · intro path nt obj h
    simp [parse_data, h]
  · intro path nt pre kv post hpre hmatch
    have h1 : findFirst (pre ++ kv :: post) path
        = findFirst (kv :: post) (scanLeftover pre path) :=
      findFirst_append_of_none pre (kv :: post) path hpre
    have h2 : findFirst (kv :: post) (scanLeftover pre path) = some kv := by
      rcases hmk : matchKey kv.1 (scanLeftover pre path) with ⟨b, rem⟩
      cases b
      · rw [hmk] at hmatch; simp at hmatch
      · simp [findFirst, hmk]
    rcases kv with ⟨k, jv⟩
    cases jv <;> simp [parse_data, h1, h2]

/-- Witness for C10: the path `"ab"` has its first character consumed by the
failing candidate key `"z"`, so the member `"b"` matches the leftover and its
number is converted. -/
theorem parse_data_top_level_first_match_witness :
    parse_data ['a', 'b'] NumberType.U128
      (JsonValue.Object [(['z'], JsonValue.Null),
        (['b'], JsonValue.Number ⟨7, 0, 0, 0⟩)])
      = some (PrimitiveOracleType.U128 7) :=
  parse_data_top_level_first_match.2.2 ['a', 'b'] NumberType.U128
    [(['z'], JsonValue.Null)] (['b'], JsonValue.Number ⟨7, 0, 0, 0⟩) [] rfl rfl

/-- C4 (amended): the unrestricted claim is false — see the counterexample
below, where an in-range literal wraps in `i64` and converts to `FixedU128 0`
instead of the exact rational.  Amended claim: for a decimal literal with
non-negative integer part converted to the `FixedU128` kind whose `i64`
intermediates stay in range (`fraction_digits ≤ 18`, mantissa
`m = integer * 10^fraction_digits + fraction ≤ i64::MAX`, scaled mantissa
`m * 10^decimal_point ≤ i64::MAX` when `decimal_point ≥ 0`, and
`-decimal_point ≤ 18` when negative) and whose scaled value fits `u128`, the
resulting inner value `r` (at the native scale `10^18`) satisfies
`r = m * 10^decimal_point * 10^18` when `decimal_point ≥ 0` and
`r * 10^(-decimal_point) = m * 10^18` (exact, no remainder) when
`decimal_point < 0` — the exact rational, never a float. -/
theorem from_number_value_fixed_exact (val : NumberValue)
    (h0 : 0 ≤ val.integer)
    (hf : val.fraction_length ≤ 18)
    (hm : mantissa val ≤ I64MAX)
    (hpos : 0 ≤ decimal_point val →
      mantissa val * 10 ^ (decimal_point val).toNat ≤ I64MAX)
    (hneg : decimal_point val < 0 → (decimal_point val).natAbs ≤ 18)
    (hbpos : 0 ≤ decimal_point val →
      mantissa val * 10 ^ (decimal_point val).toNat * 10 ^ 18 ≤ (U128MAX : Int))
    (hbneg : decimal_point val < 0 →
      mantissa val * 10 ^ (18 - (decimal_point val).natAbs) ≤ (U128MAX : Int)) :
    ∃ r : Nat,
      from_number_value val NumberType.FixedU128
        = some (PrimitiveOracleType.FixedU128 r)
      ∧ (0 ≤ decimal_point val →
          (r : Int) = mantissa val * 10 ^ (decimal_point val).toNat * 10 ^ 18)
      ∧ (decimal_point val < 0 →
          (r : Int) * 10 ^ (decimal_point val).natAbs = mantissa val * 10 ^ 18) := by
  have hFnn : (0 : Int) ≤ (val.fraction : Int) := Int.natCast_nonneg _
  have hpnn : (0 : Int) ≤ (10 : Int) ^ val.fraction_length :=
    pow_nonneg (by norm_num) _
  have hInn : 0 ≤ val.integer * 10 ^ val.fraction_length := mul_nonneg h0 hpnn
  have hmnn : 0 ≤ mantissa val := add_nonneg hInn hFnn
  have hIle : val.integer * 10 ^ val.fraction_length ≤ I64MAX := by
    have h := hm; unfold mantissa at h; omega
  have hFle : (val.fraction : Int) ≤ I64MAX := by
    have h := hm; unfold mantissa at h; omega
  have w1 : i64wrap (val.integer * pow10i64 val.fraction_length)
      = val.integer * 10 ^ val.fraction_length := by
    rw [pow10i64_eq hf]; exact i64wrap_of_nonneg hInn hIle
  have w2 : i64wrap (val.fraction : Int) = (val.fraction : Int) :=
    i64wrap_of_nonneg hFnn hFle
  have w3 : i64wrap (val.integer * 10 ^ val.fraction_length + (val.fraction : Int))
      = mantissa val := i64wrap_of_nonneg hmnn hm
  rcases le_or_lt 0 (decimal_point val) with hdp | hdp
  · -- decimal_point ≥ 0
    by_cases hm0 : mantissa val = 0
    · have w4 : i64wrap (mantissa val * pow10i64 (decimal_point val).toNat) = 0 := by
        rw [hm0, zero_mul]
        exact i64wrap_of_nonneg le_rfl (by norm_num [I64MAX])
      have hr : saturating_from_rational 0 1
          = some ((0 : Int).natAbs * FIXED_DIV / (1 : Int).natAbs) :=
        saturating_from_rational_of_nonneg le_rfl one_pos (by simp)
      refine ⟨0, ?_, ?_, ?_⟩
      · rw [from_number_value_fixed_eq val h0, if_pos hdp, if_pos hdp,
          w1, w2, w3, w4, hr]
        simp
      · intro _
        simp [hm0]
      · intro hcon
        exact absurd hcon (not_lt.mpr hdp)
    · have hm1 : 1 ≤ mantissa val := by omega
      have hptnn : (0 : Int) ≤ 10 ^ (decimal_point val).toNat :=
        pow_nonneg (by norm_num) _
      have hple : (10 : Int) ^ (decimal_point val).toNat ≤ I64MAX := by
        have h1 : (1 : Int) * 10 ^ (decimal_point val).toNat
            ≤ mantissa val * 10 ^ (decimal_point val).toNat :=
          mul_le_mul_of_nonneg_right hm1 hptnn
        have h2 := hpos hdp
        omega
      have ht18 : (decimal_point val).toNat ≤ 18 := by
        by_contra hcon
        push_neg at hcon
        have h1 : (10 : Int) ^ 19 ≤ 10 ^ (decimal_point val).toNat :=
          pow_le_pow_right₀ (by norm_num) (by omega)
        have h2 := h1.trans hple
        norm_num [I64MAX] at h2
      have hnnn : 0 ≤ mantissa val * 10 ^ (decimal_point val).toNat :=
        mul_nonneg hmnn hptnn
      have w4 : i64wrap (mantissa val * pow10i64 (decimal_point val).toNat)
          = mantissa val * 10 ^ (decimal_point val).toNat := by
        rw [pow10i64_eq ht18]
        exact i64wrap_of_nonneg hnnn (hpos hdp)
      have hMcast : ((mantissa val * 10 ^ (decimal_point val).toNat).natAbs : Int)
          = mantissa val * 10 ^ (decimal_point val).toNat :=
        Int.natAbs_of_nonneg hnnn
      have hqbound : (mantissa val * 10 ^ (decimal_point val).toNat).natAbs
          * FIXED_DIV ≤ U128MAX := by
        rw [← Nat.cast_le (α := Int)]
        push_cast [hMcast, FIXED_DIV]
        simpa using hbpos hdp
      have hr := saturating_from_rational_of_nonneg hnnn one_pos
        (by simpa using hqbound)
      refine ⟨(mantissa val * 10 ^ (decimal_point val).toNat).natAbs * FIXED_DIV,
        ?_, ?_, ?_⟩
      · rw [from_number_value_fixed_eq val h0, if_pos hdp, if_pos hdp,
          w1, w2, w3, w4, hr]
        simp
      · intro _
        push_cast [hMcast, FIXED_DIV]
        ring
      · intro hcon
        exact absurd hcon (not_lt.mpr hdp)
  · -- decimal_point < 0
    have hk : (decimal_point val).natAbs ≤ 18 := hneg hdp
    have hpk : pow10i64 (decimal_point val).natAbs
        = (10 : Int) ^ (decimal_point val).natAbs := pow10i64_eq hk
    have hdpos : (0 : Int) < 10 ^ (decimal_point val).natAbs :=
      pow_pos (by norm_num) _
    have h10abs : ((10 : Int) ^ (decimal_point val).natAbs).natAbs
        = 10 ^ (decimal_point val).natAbs := by
      rw [Int.natAbs_pow]
      rfl
    have hdiv_exact : (mantissa val).natAbs * FIXED_DIV
        / 10 ^ (decimal_point val).natAbs
        = (mantissa val).natAbs * 10 ^ (18 - (decimal_point val).natAbs) := by
      have hkk : 18 - (decimal_point val).natAbs + (decimal_point val).natAbs
          = 18 := by omega
      have hsplit : FIXED_DIV
          = 10 ^ (18 - (decimal_point val).natAbs)
            * 10 ^ (decimal_point val).natAbs := by
        rw [FIXED_DIV, ← pow_add, hkk]
      rw [hsplit, ← mul_assoc,
        Nat.mul_div_cancel _ (Nat.pos_pow_of_pos _ (by norm_num))]
    have hmcast : ((mantissa val).natAbs : Int) = mantissa val :=
      Int.natAbs_of_nonneg hmnn
    have hqbound : (mantissa val).natAbs * FIXED_DIV
        / 10 ^ (decimal_point val).natAbs ≤ U128MAX := by
      rw [hdiv_exact, ← Nat.cast_le (α := Int)]
      push_cast [hmcast]
      simpa using hbneg hdp
    have hr := saturating_from_rational_of_nonneg hmnn hdpos
      (by rw [h10abs]; exact hqbound)
    refine ⟨(mantissa val).natAbs * 10 ^ (18 - (decimal_point val).natAbs),
      ?_, ?_, ?_⟩
    · rw [from_number_value_fixed_eq val h0, if_neg (not_le.mpr hdp),
        if_neg (not_le.mpr hdp), w1, w2, w3, hpk, hr, h10abs, hdiv_exact]
      rfl
    · intro hcon
      exact absurd hdp (not_lt.mpr hcon)
    · intro _
      have hkk : 18 - (decimal_point val).natAbs + (decimal_point val).natAbs
          = 18 := by omega
      push_cast [hmcast]
      rw [mul_assoc, ← pow_add, hkk]
      norm_num

/-- Counterexample to C4 as stated: the literal `2.0000000000000000000`
(integer `2`, nineteen fraction digits, exact value `2`, `decimal_point = -19`)
is in scope of the claim — non-negative integer part, exact value representable
as inner `2 * 10^18` — yet `10_i64.pow(19)` wraps negative, the wrapped
numerator `i64wrap (2 * pow10i64 19)` is positive, the operand signs disagree,
and the conversion saturates to `FixedU128 0`: the returned inner value `0`
does not satisfy the claim's exactness equation
`r * 10^(-decimal_point) = m * 10^18`. -/
theorem from_number_value_fixed_exact_counterexample :
    from_number_value ⟨2, 0, 19, 0⟩ NumberType.FixedU128
      = some (PrimitiveOracleType.FixedU128 0)
    ∧ decimal_point ⟨2, 0, 19, 0⟩ < 0
    ∧ (0 : Int) * 10 ^ (decimal_point ⟨2, 0, 19, 0⟩).natAbs
        ≠ mantissa ⟨2, 0, 19, 0⟩ * 10 ^ 18 :=
  ⟨by decide, by decide, by decide⟩

/-- Witness for C4 at the literal `1.35 * 10^3` (positive `decimal_point`). -/
theorem from_number_value_fixed_exact_witness :
    ∃ r : Nat,
      from_number_value ⟨1, 35, 2, 3⟩ NumberType.FixedU128
        = some (PrimitiveOracleType.FixedU128 r)
      ∧ (0 ≤ decimal_point ⟨1, 35, 2, 3⟩ →
          (r : Int) = mantissa ⟨1, 35, 2, 3⟩
            * 10 ^ (decimal_point ⟨1, 35, 2, 3⟩).toNat * 10 ^ 18)
      ∧ (decimal_point ⟨1, 35, 2, 3⟩ < 0 →
          (r : Int) * 10 ^ (decimal_point ⟨1, 35, 2, 3⟩).natAbs
            = mantissa ⟨1, 35, 2, 3⟩ * 10 ^ 18) :=
  from_number_value_fixed_exact ⟨1, 35, 2, 3⟩ (by decide) (by decide) (by decide)
    (fun _ => by decide) (fun h => absurd h (by decide)) (fun _ => by decide)
    (fun h => absurd h (by decide))

end Oracle
